import Mathlib

/-!
Shallow embedding of the asset-valuator price-aggregation core:
the sliding-window rate limiter (`src/utils/rate-limiter.ts`), the
outlier-filtered consensus reduction and provider orchestration
(`src/providers/decentralized-aggregator.ts`), the tiered edge cache
(`src/utils/edge-cache.ts`) and the valuator facade
(`src/asset-valuator.ts`).

Modelling conventions:
* JavaScript numbers are modelled as `ℚ` (prices, thresholds) or `Int`
  (millisecond timestamps).  `Date.now()` values are explicit parameters.
* Async control flow is modelled as explicit state passing; a rejected
  promise is an `Except.error` / a dedicated result constructor.
* JS `Map` objects and `localStorage` are modelled as insertion-ordered
  association lists (`mapGet`/`mapSet`/`mapDelete` below), which matches
  JS iteration-order semantics for the keys used here.
-/

/-- A JavaScript error value, keeping exactly the fields inspected by
`RateLimiter.is429Error`: `error?.response?.status`, `error?.code` and
`error?.message`. -/
structure JsError where
  status : Option Nat
  code : Option String
  message : Option String
deriving DecidableEq, Repr

/-- JS `s.includes(sub)`: substring containment, as infix of character
lists. -/
def jsIncludes (s sub : String) : Bool := decide (sub.toList <:+: s.toList)

/-- JS `s.toUpperCase()` for the ASCII tickers this library handles,
modelled as a character-wise map (equivalent to `String.toUpper`, but
stated over the string's character list so that it evaluates by kernel
reduction). -/
def jsToUpper (s : String) : String := ⟨s.data.map Char.toUpper⟩

/-- `RateLimiter.is429Error`:
`error?.response?.status === 429 || error?.code === 'ERR_RATE_LIMITED' ||
(error?.message && error.message.includes('429'))`.
An empty message string is falsy in JS, and the empty string also does not
contain `"429"`, so the truthiness test is absorbed by the inclusion test. -/
def RateLimiter.is429Error (e : JsError) : Bool :=
  e.status == some 429 || e.code == some "ERR_RATE_LIMITED" ||
    (match e.message with
     | some m => jsIncludes m "429"
     | none => false)

/-- Constructor-resolved rate limiter options (`retryAfterMs` and
`maxRetries` defaulted; note `options.maxRetries || 3` turns `0` into `3`,
so a real limiter always has `maxRetries ≥ 1`). -/
structure RateLimiterOptions where
  maxRequests : Nat
  windowMs : Int
  retryAfterMs : Nat
  maxRetries : Nat
deriving DecidableEq, Repr

/-- Limiter state for one key: the shared window history `this.requests`
(millisecond timestamps, push order) and `this.retryCount.get(key)` for
the single key a call uses (`none` = no entry in the map). -/
structure RLState where
  requests : List Int
  retryCount : Option Nat
deriving DecidableEq, Repr

/-- Outcome of `RateLimiter.execute`: the operation's value, the
`'Rate limit exceeded. Please try again later.'` rejection, an operation
failure propagated to the caller, or fuel exhaustion of the model (the
real recursion has no bound). -/
inductive ExecResult (α : Type) where
  | ok (a : α)
  | rateLimitExceeded
  | opError (e : JsError)
  | outOfFuel
deriving DecidableEq, Repr

/-- Observable outcome of one `execute` call: result, final limiter state,
the list of backoff sleep durations performed (in order), and how many
times the wrapped operation was invoked. -/
structure ExecOut (α : Type) where
  result : ExecResult α
  state : RLState
  sleeps : List Nat
  opCalls : Nat
deriving DecidableEq, Repr

/-- `this.requests.filter(time => now - time < this.options.windowMs)`. -/
def pruneRequests (windowMs : Int) (now : Int) (reqs : List Int) : List Int :=
  reqs.filter (fun time => now - time < windowMs)

/-- `RateLimiter.execute(key, fn)` for a single key, as a fuel-indexed
function.  `now i` is the `Date.now()` value observed at the `i`-th
(re-)entry of `execute`; `op j` is the outcome of the `j`-th invocation of
`fn`.  Mirrors the source line by line: prune the window; if saturated,
either throw `RateLimitExceeded` (retry ceiling reached, counter deleted)
or sleep `retryAfterMs * 2^retries`, bump the counter and recurse;
otherwise push the current time, delete the key's retry counter, invoke
`fn`, and on a failure classified by `is429Error` back off and recurse
(any other failure is rethrown unchanged). -/
def RateLimiter.execute (opts : RateLimiterOptions) (now : Nat → Int)
    (op : Nat → Except JsError α) :
    Nat → Nat → Nat → RLState → ExecOut α
  | 0, _, _, st => ⟨.outOfFuel, st, [], 0⟩
  | fuel+1, entry, opIdx, st =>
    let t := now entry
    let reqs := pruneRequests opts.windowMs t st.requests
    if opts.maxRequests ≤ reqs.length then
      let retries := st.retryCount.getD 0
      if opts.maxRetries ≤ retries then
        ⟨.rateLimitExceeded, ⟨reqs, none⟩, [], 0⟩
      else
        let backoff := opts.retryAfterMs * 2 ^ retries
        let r := RateLimiter.execute opts now op fuel (entry+1) opIdx
          ⟨reqs, some (retries+1)⟩
        ⟨r.result, r.state, backoff :: r.sleeps, r.opCalls⟩
    else
      let st1 : RLState := ⟨reqs ++ [t], none⟩
      match op opIdx with
      | .ok v => ⟨.ok v, st1, [], 1⟩
      | .error e =>
        if RateLimiter.is429Error e then
          let retries := st1.retryCount.getD 0
          if opts.maxRetries ≤ retries then
            ⟨.opError e, ⟨st1.requests, none⟩, [], 1⟩
          else
            let backoff := opts.retryAfterMs * 2 ^ retries
            let r := RateLimiter.execute opts now op fuel (entry+1) (opIdx+1)
              ⟨st1.requests, some (retries+1)⟩
            ⟨r.result, r.state, backoff :: r.sleeps, r.opCalls + 1⟩
        else
          ⟨.opError e, st1, [], 1⟩

/-- The window histories seen by successive saturated `execute` entries:
`prunedChain w now entry i reqs` is the request list after the prunes at
entries `entry, entry+1, …, entry+i`. -/
def prunedChain (w : Int) (now : Nat → Int) (entry : Nat) (i : Nat)
    (reqs : List Int) : List Int :=
  match i with
  | 0 => pruneRequests w (now entry) reqs
  | i'+1 => prunedChain w now (entry+1) i' (pruneRequests w (now entry) reqs)

/-! ## Consensus reduction (`DecentralizedAggregator.calculateConsensusPrice`) -/

/-- The outlier filter predicate
`price => Math.abs(price - median) / median <= 0.1`.  When `median = 0`
the JS quotient is `NaN` or `Infinity` and the comparison is false, hence
the explicit guard. -/
def isNonOutlier (median price : ℚ) : Bool :=
  if median = 0 then false else decide (|price - median| / median ≤ 1/10)

/-- `DecentralizedAggregator.calculateConsensusPrice(prices)` on the list
of quote prices (the source maps `p => p.price` before sorting; the
numeric comparator sort `(a, b) => a - b` is ascending).  `none` models
the `'No prices available for consensus'` throw on an empty input.  The
median is `sortedPrices[Math.floor(sortedPrices.length / 2)]`, the
upper-middle element on even lengths. -/
def calculateConsensusPrice (consensusThreshold : ℚ) (prices : List ℚ) :
    Option ℚ :=
  match prices with
  | [] => none
  | [p] => some p
  | _ =>
    let sortedPrices := List.insertionSort (· ≤ ·) prices
    let median := sortedPrices.getD (sortedPrices.length / 2) 0
    let filtered := sortedPrices.filter (fun price => isNonOutlier median price)
    if (filtered.length : ℚ) < (prices.length : ℚ) * consensusThreshold then
      some median
    else
      some (filtered.foldl (· + ·) 0 / (filtered.length : ℚ))

/-- The `median` local of `calculateConsensusPrice`:
`sortedPrices[Math.floor(sortedPrices.length / 2)]`. -/
def consensusMedian (prices : List ℚ) : ℚ :=
  let sortedPrices := List.insertionSort (· ≤ ·) prices
  sortedPrices.getD (sortedPrices.length / 2) 0

/-- The `filtered` local of `calculateConsensusPrice`: the sorted prices
surviving the 10%-deviation-from-median filter. -/
def consensusSurvivors (prices : List ℚ) : List ℚ :=
  let sortedPrices := List.insertionSort (· ≤ ·) prices
  sortedPrices.filter (fun price => isNonOutlier (consensusMedian prices) price)

/-- The branch choice on the surviving prices, given a sorted permutation
`s` of the input, a median picked at index `medianIdx s.length`, and the
original count `n`: below `n × θ` survivors gives the median, otherwise
the arithmetic mean of the survivors.  Shared tail of the two readings of
the spec's consensus description. -/
def consensusFromSorted (medianIdx : Nat → Nat) (θ : ℚ) (n : Nat)
    (s : List ℚ) (r : ℚ) : Prop :=
  let m := s.getD (medianIdx s.length) 0
  let survivors := s.filter (fun price => isNonOutlier m price)
  if (survivors.length : ℚ) < (n : ℚ) * θ then r = m
  else r = survivors.foldl (· + ·) 0 / (survivors.length : ℚ)

/-- The spec's consensus reduction, stated over any sorted permutation of
the quote prices and parametrised by the median index convention
(`fun n => (n-1)/2` is the spec's lower-middle element on even counts,
`fun n => n/2` the code's upper-middle element). -/
def consensusSpecWith (medianIdx : Nat → Nat) (θ : ℚ) (prices : List ℚ)
    (r : ℚ) : Prop :=
  (∃ p, prices = [p] ∧ r = p) ∨
  (2 ≤ prices.length ∧ ∃ s : List ℚ, List.Perm s prices ∧ s.Sorted (· ≤ ·) ∧
    consensusFromSorted medianIdx θ prices.length s r)

/-- Modelled from the spec: "the median (the lower-middle element when the
count is even)" of the prices — the element at index `(n-1)/2` of the
ascending sort. -/
def specLowerMedian (prices : List ℚ) : ℚ :=
  (List.insertionSort (· ≤ ·) prices).getD ((prices.length - 1) / 2) 0

/-! ## Tiered cache (`EdgeCache`, `src/utils/edge-cache.ts`)

JS `Map` objects, the `cache_`-prefixed slice of `localStorage`, and the
IndexedDB object store are all modelled as insertion-ordered association
lists; `JSON.stringify`/`JSON.parse` round-tripping is modelled as the
identity on the stored entry.  Backend failures (storage quota,
corruption) are injected through explicit `Bool` parameters standing for
"the `try` block threw"; every `catch` in the source only warns, so the
model's cache operations have no error channel at all. -/

/-- Look up the value stored at `k` (JS `Map.get` / `localStorage.getItem`
on a serialized entry). -/
def mapGet (k : String) : List (String × β) → Option β
  | [] => none
  | (k', v) :: rest => if k' = k then some v else mapGet k rest

/-- Insert or overwrite at `k`.  A JS `Map.set` (and `localStorage.setItem`)
keeps the original insertion position when the key exists and appends
otherwise. -/
def mapSet (k : String) (v : β) : List (String × β) → List (String × β)
  | [] => [(k, v)]
  | (k', v') :: rest =>
    if k' = k then (k, v) :: rest else (k', v') :: mapSet k v rest

/-- Remove the entry at `k` (JS `Map.delete` / `localStorage.removeItem`). -/
def mapDelete (k : String) : List (String × β) → List (String × β)
  | [] => []
  | (k', v') :: rest => if k' = k then rest else (k', v') :: mapDelete k rest

/-- `CacheEntry<T>` from `edge-cache.ts`: `{ data, timestamp, ttl }` with
millisecond `timestamp = Date.now()` at write time. -/
structure CacheEntry (α : Type) where
  data : α
  timestamp : Int
  ttl : Int
deriving DecidableEq, Repr

/-- The `storage` option: `'memory' | 'localStorage' | 'indexedDB'`. -/
inductive StorageKind where
  | memory
  | localStorage
  | indexedDB
deriving DecidableEq, Repr

/-- Constructor-resolved `EdgeCacheOptions` (`defaultTTL || 60000`,
`maxSize || 1000`, `storage || 'memory'`). -/
structure EdgeCacheOptions where
  defaultTTL : Int
  maxSize : Nat
  storage : StorageKind
deriving DecidableEq, Repr

/-- Host-environment capability flags consulted by the cache
(`hasLocalStorage()` from `browser-detect.ts`). -/
structure CacheEnv where
  hasLocalStorage : Bool
deriving DecidableEq, Repr

/-- The mutable state of one `EdgeCache` instance: the in-memory `Map`,
the `cache_`-prefixed `localStorage` entries (stored under their raw
keys), the IndexedDB store, and whether `this.db` is non-null. -/
structure EdgeCacheState (α : Type) where
  memoryCache : List (String × CacheEntry α)
  localStore : List (String × CacheEntry α)
  idbStore : List (String × CacheEntry α)
  dbOpen : Bool
deriving DecidableEq, Repr

/-- The empty cache state (fresh instance, `this.db` already opened or
not according to `dbOpen`). -/
def EdgeCacheState.empty (dbOpen : Bool) : EdgeCacheState α :=
  ⟨[], [], [], dbOpen⟩

/-- `EdgeCache.evictOldest()`: stable-sort the `cache_` entries by stored
timestamp ascending and remove the oldest `Math.ceil(n * 0.1)` of them,
preserving the order of the survivors. -/
def evictOldest (ls : List (String × CacheEntry α)) :
    List (String × CacheEntry α) :=
  let sorted := List.insertionSort
    (fun a b : String × CacheEntry α => a.2.timestamp < b.2.timestamp) ls
  let toRemove := (ls.length + 9) / 10
  let victims := (sorted.take toRemove).map (fun kv => kv.1)
  ls.filter (fun kv => !(victims.contains kv.1))

/-- `EdgeCache.get(key)` at wall-clock time `now`.  `readFails` injects a
thrown read (`localStorage.getItem`/JSON parse, or the IndexedDB
transaction): the `catch` only warns, so the call returns `null` with the
state unchanged.  A fresh entry (`now - timestamp < ttl`) is returned;
an expired one is removed from the active backend and `null` returned.
The localStorage and IndexedDB paths never consult `memoryCache`. -/
def EdgeCache.get (opts : EdgeCacheOptions) (env : CacheEnv) (now : Int)
    (readFails : Bool) (key : String) (st : EdgeCacheState α) :
    Option α × EdgeCacheState α :=
  match opts.storage with
  | .localStorage =>
    if env.hasLocalStorage then
      if readFails then (none, st)
      else
        match mapGet key st.localStore with
        | some entry =>
          if now - entry.timestamp < entry.ttl then (some entry.data, st)
          else (none, { st with localStore := mapDelete key st.localStore })
        | none => (none, st)
    else (none, st)
  | .indexedDB =>
    if st.dbOpen then
      if readFails then (none, st)
      else
        match mapGet key st.idbStore with
        | some entry =>
          if now - entry.timestamp < entry.ttl then (some entry.data, st)
          else (none, { st with idbStore := mapDelete key st.idbStore })
        | none => (none, st)
    else (none, st)
  | .memory =>
    match mapGet key st.memoryCache with
    | some entry =>
      if now - entry.timestamp < entry.ttl then (some entry.data, st)
      else (none, { st with memoryCache := mapDelete key st.memoryCache })
    | none => (none, st)

/-- `EdgeCache.set(key, data, ttl?)` at wall-clock time `now`, building
`{ data, timestamp: Date.now(), ttl: ttl || defaultTTL }`.  `writeFails`
injects a thrown write on the external backends: the `catch` warns and
stores the entry in the in-memory `Map` instead (with no size
enforcement).  Successful localStorage writes evict the oldest 10% when
the store exceeds `maxSize`; successful memory writes evict the single
oldest-inserted entry; IndexedDB has no size enforcement.  With the
localStorage capability absent, or `this.db` null in IndexedDB mode, the
write is silently skipped. -/
def EdgeCache.set (opts : EdgeCacheOptions) (env : CacheEnv) (now : Int)
    (writeFails : Bool) (key : String) (data : α) (ttl : Option Int)
    (st : EdgeCacheState α) : EdgeCacheState α :=
  let entry : CacheEntry α := ⟨data, now, ttl.getD opts.defaultTTL⟩
  match opts.storage with
  | .localStorage =>
    if env.hasLocalStorage then
      if writeFails then
        { st with memoryCache := mapSet key entry st.memoryCache }
      else
        let ls := mapSet key entry st.localStore
        let ls2 := if opts.maxSize < ls.length then evictOldest ls else ls
        { st with localStore := ls2 }
    else st
  | .indexedDB =>
    if st.dbOpen then
      if writeFails then
        { st with memoryCache := mapSet key entry st.memoryCache }
      else
        { st with idbStore := mapSet key entry st.idbStore }
    else st
  | .memory =>
    let m := mapSet key entry st.memoryCache
    let m2 := if opts.maxSize < m.length then m.drop 1 else m
    { st with memoryCache := m2 }

/-- The backing store the configured backend reads and writes. -/
def activeStore (kind : StorageKind) (st : EdgeCacheState α) :
    List (String × CacheEntry α) :=
  match kind with
  | .memory => st.memoryCache
  | .localStorage => st.localStore
  | .indexedDB => st.idbStore

/-- The capability guard the configured backend's code path sits behind. -/
def backendAvailable (kind : StorageKind) (env : CacheEnv)
    (st : EdgeCacheState α) : Prop :=
  match kind with
  | .memory => True
  | .localStorage => env.hasLocalStorage = true
  | .indexedDB => st.dbOpen = true

/-! ## Consensus aggregator (`DecentralizedAggregator`)

Providers are external collaborators; a provider's behaviour enters the
model as the outcome it would produce (`Except JsError …`), indexed by
the operation-invocation number since the rate limiter can re-run the
whole wrapped closure.  `Date.now()` values are explicit parameters. -/

/-- `PriceData` from `types.ts` (`timestamp: Date` as milliseconds). -/
structure PriceData where
  symbol : String
  price : ℚ
  timestamp : Int
deriving DecidableEq, Repr

/-- The `new Error('No price data available for …')` thrown by
`fetchPrice` when zero quotes were collected. -/
def noPriceDataError (symbol : String) : JsError :=
  ⟨none, none, some ("No price data available for " ++ symbol)⟩

/-- The `new Error('No prices available for consensus')` thrown by
`calculateConsensusPrice` on an empty list (unreachable from
`fetchPrice`, which checks for emptiness first). -/
def noConsensusError : JsError :=
  ⟨none, none, some "No prices available for consensus"⟩

/-- Constructor-resolved aggregator configuration: rate limiter options
(the constructor pins `retryAfterMs = 2000`, `maxRetries = 3`), cache
options, and `consensusThreshold || 0.5`. -/
structure AggregatorConfig where
  rlOpts : RateLimiterOptions
  cacheOpts : EdgeCacheOptions
  consensusThreshold : ℚ
deriving Repr

/-- The aggregator's mutable state: its `EdgeCache` and its
`RateLimiter`. -/
structure AggregatorState where
  cache : EdgeCacheState PriceData
  rl : RLState

/-- `DecentralizedAggregator.fetchFromProviders(symbol, currency)`:
providers are tried sequentially; a successful quote is collected, a
failure is warned about and skipped, and the loop stops early once
`results.length >= Math.ceil(providers.length * consensusThreshold)`.
`provs` lists each provider's outcome in priority order and `total` is
`this.providers.length`. -/
def fetchFromProviders (θ : ℚ) (total : Nat) :
    List (Except JsError PriceData) → List PriceData → List PriceData
  | [], acc => acc
  | r :: rest, acc =>
    match r with
    | .ok p =>
      let acc' := acc ++ [p]
      if Int.ceil ((total : ℚ) * θ) ≤ (acc'.length : ℤ) then acc'
      else fetchFromProviders θ total rest acc'
    | .error _ => fetchFromProviders θ total rest acc

/-- The closure `fetchPrice` hands to `rateLimiter.execute`: query the
providers, throw `NoPriceData` when nothing was collected, otherwise
reduce to the consensus price, build the quote stamped
`symbol.toUpperCase()` / `new Date()`, write it through to the cache and
return it.  `provs i` is the provider outcome list seen by the `i`-th
invocation and `opTime i` its `Date.now()`. -/
def fetchPriceOp (cfg : AggregatorConfig) (env : CacheEnv)
    (symbol currency : String) (cacheSt : EdgeCacheState PriceData)
    (provs : Nat → List (Except JsError PriceData)) (opTime : Nat → Int)
    (i : Nat) : Except JsError (PriceData × EdgeCacheState PriceData) :=
  let results := fetchFromProviders cfg.consensusThreshold (provs i).length
    (provs i) []
  if results.length = 0 then
    .error (noPriceDataError symbol)
  else
    match calculateConsensusPrice cfg.consensusThreshold
      (results.map (fun p => p.price)) with
    | none => .error noConsensusError
    | some consensusPrice =>
      let priceData : PriceData := ⟨jsToUpper symbol, consensusPrice, opTime i⟩
      .ok (priceData,
        EdgeCache.set cfg.cacheOpts env (opTime i) false
          (symbol ++ "-" ++ currency) priceData none cacheSt)

/-- `DecentralizedAggregator.fetchPrice(symbol, currency)`: cache lookup
on `symbol-currency` (at time `t0`) returning the hit immediately,
otherwise the provider round wrapped in `rateLimiter.execute` keyed by
the same string.  The `ok` payload carries the resulting quote together
with the cache state after the write-through. -/
def DecentralizedAggregator.fetchPrice (cfg : AggregatorConfig)
    (env : CacheEnv) (symbol currency : String) (st : AggregatorState)
    (t0 : Int) (now : Nat → Int) (opTime : Nat → Int)
    (provs : Nat → List (Except JsError PriceData)) (fuel : Nat) :
    ExecOut (PriceData × EdgeCacheState PriceData) :=
  match EdgeCache.get cfg.cacheOpts env t0 false (symbol ++ "-" ++ currency)
    st.cache with
  | (some cached, cache') => ⟨.ok (cached, cache'), st.rl, [], 0⟩
  | (none, cache') =>
    RateLimiter.execute cfg.rlOpts now
      (fetchPriceOp cfg env symbol currency cache' provs opTime) fuel 0 0 st.rl

/-- The loop body of `DecentralizedAggregator.groupBySymbol`, threading
the `Map` being built (association list in first-occurrence key order). -/
def groupBySymbolAux (grouped : List (String × List PriceData)) :
    List PriceData → List (String × List PriceData)
  | [] => grouped
  | price :: rest =>
    match mapGet (jsToUpper price.symbol) grouped with
    | some ps =>
      groupBySymbolAux
        (mapSet (jsToUpper price.symbol) (ps ++ [price]) grouped) rest
    | none =>
      groupBySymbolAux (grouped ++ [(jsToUpper price.symbol, [price])]) rest

/-- `DecentralizedAggregator.groupBySymbol(prices)`: a `Map` from
uppercased symbol to the quotes carrying it, in first-occurrence order. -/
def groupBySymbol (prices : List PriceData) :
    List (String × List PriceData) :=
  groupBySymbolAux [] prices

/-- The per-symbol consensus loop of `fetchMultiplePrices`: for each
symbol group (all non-empty by construction) compute the consensus quote
stamped with `opTime`, cache it under `symbol-currency`, and collect it. -/
def batchConsensusList (cfg : AggregatorConfig) (env : CacheEnv)
    (currency : String) (opTime : Int) :
    List (String × List PriceData) → EdgeCacheState PriceData →
    List PriceData × EdgeCacheState PriceData
  | [], cacheSt => ([], cacheSt)
  | g :: rest, cacheSt =>
    if g.2.length = 0 then batchConsensusList cfg env currency opTime rest cacheSt
    else
      match calculateConsensusPrice cfg.consensusThreshold
        (g.2.map (fun p => p.price)) with
      | none => batchConsensusList cfg env currency opTime rest cacheSt
      | some consensusPrice =>
        let priceData : PriceData := ⟨g.1, consensusPrice, opTime⟩
        let out := batchConsensusList cfg env currency opTime rest
          (EdgeCache.set cfg.cacheOpts env opTime false
            (g.1 ++ "-" ++ currency) priceData none cacheSt)
        (priceData :: out.1, out.2)

/-- The `allResults` accumulation of `fetchMultiplePrices`: every
provider's returned quote list (failures warned and skipped),
concatenated in provider order, for the `i`-th invocation. -/
def batchAllResults
    (provBatch : Nat → List (Except JsError (List PriceData))) (i : Nat) :
    List PriceData :=
  ((provBatch i).filterMap (fun r =>
    match r with
    | .ok l => some l
    | .error _ => none)).flatten

/-- The closure `fetchMultiplePrices` hands to `rateLimiter.execute`:
query **every** provider for the whole uncached symbol list (failures
warned and skipped), concatenate the returned quotes across providers in
provider order, group by uppercased symbol and run the consensus loop.
This closure never throws. -/
def fetchMultipleOp (cfg : AggregatorConfig) (env : CacheEnv)
    (currency : String) (cacheSt : EdgeCacheState PriceData)
    (provBatch : Nat → List (Except JsError (List PriceData)))
    (opTime : Nat → Int) (i : Nat) :
    Except JsError (List PriceData × EdgeCacheState PriceData) :=
  .ok (batchConsensusList cfg env currency (opTime i)
    (groupBySymbol (batchAllResults provBatch i)) cacheSt)

/-- The cache-partition loop at the top of `fetchMultiplePrices`: walk
the requested symbols in order, collecting cache hits (at time `t0`) and
the uncached remainder. -/
def cachePartition (cfg : AggregatorConfig) (env : CacheEnv) (t0 : Int)
    (currency : String) :
    List String → EdgeCacheState PriceData →
    List PriceData × List String × EdgeCacheState PriceData
  | [], st => ([], [], st)
  | symbol :: rest, st =>
    match EdgeCache.get cfg.cacheOpts env t0 false (symbol ++ "-" ++ currency)
      st with
    | (some cached, st') =>
      let out := cachePartition cfg env t0 currency rest st'
      (cached :: out.1, out.2.1, out.2.2)
    | (none, st') =>
      let out := cachePartition cfg env t0 currency rest st'
      (out.1, symbol :: out.2.1, out.2.2)

/-- `DecentralizedAggregator.fetchMultiplePrices(symbols, currency)`:
partition into cached and uncached; when anything is uncached, run the
batch closure under the rate limiter and append the newly resolved quotes
to the cached ones.  The `ok` payload carries the returned list and the
final cache state. -/
def DecentralizedAggregator.fetchMultiplePrices (cfg : AggregatorConfig)
    (env : CacheEnv) (symbols : List String) (currency : String)
    (st : AggregatorState) (t0 : Int) (now : Nat → Int) (opTime : Nat → Int)
    (provBatch : Nat → List (Except JsError (List PriceData))) (fuel : Nat) :
    ExecOut (List PriceData × EdgeCacheState PriceData) :=
  let part := cachePartition cfg env t0 currency symbols st.cache
  if part.2.1.length = 0 then ⟨.ok (part.1, part.2.2), st.rl, [], 0⟩
  else
    let out := RateLimiter.execute cfg.rlOpts now
      (fetchMultipleOp cfg env currency part.2.2 provBatch opTime) fuel 0 0 st.rl
    match out.result with
    | .ok (fetched, cache') =>
      ⟨.ok (part.1 ++ fetched, cache'), out.state, out.sleeps, out.opCalls⟩
    | .rateLimitExceeded => ⟨.rateLimitExceeded, out.state, out.sleeps, out.opCalls⟩
    | .opError e => ⟨.opError e, out.state, out.sleeps, out.opCalls⟩
    | .outOfFuel => ⟨.outOfFuel, out.state, out.sleeps, out.opCalls⟩

/-! ## Valuator facade (`AssetValuator`, `src/asset-valuator.ts`)

The underlying provider is an external collaborator modelled as a
deterministic outcome function; the facade's own cache is a `Map` keyed
by `BASE_QUOTE`. -/

/-- `AssetPrice` from `types.ts` (`timestamp: Date` as milliseconds). -/
structure AssetPrice where
  base : String
  quote : String
  price : ℚ
  timestamp : Int
deriving DecidableEq, Repr

/-- A facade cache entry `{ price, timestamp }`. -/
structure FacadeCacheEntry where
  price : ℚ
  timestamp : Int
deriving DecidableEq, Repr

/-- The facade's mutable state: its price cache and `cacheTimeout`. -/
structure ValuatorState where
  cache : List (String × FacadeCacheEntry)
  cacheTimeout : Int
deriving DecidableEq, Repr

/-- `AssetValuator.getCacheKey(base, quote)`. -/
def getCacheKey (base quote : String) : String :=
  jsToUpper base ++ "_" ++ jsToUpper quote

/-- `AssetValuator.getCachedOrFetchPrice(symbol, currency)` at wall-clock
time `now`: a cache hit younger than `cacheTimeout` returns the cached
price; otherwise the provider is asked and the fresh price cached with
timestamp `Date.now()`.  Provider failures propagate (the facade has no
`catch`). -/
def getCachedOrFetchPrice
    (provider : String → String → Except JsError PriceData) (now : Int)
    (st : ValuatorState) (symbol currency : String) :
    Except JsError ℚ × ValuatorState :=
  let cacheKey := getCacheKey symbol currency
  let fetchAndCache : Except JsError ℚ × ValuatorState :=
    match provider symbol currency with
    | .error e => (.error e, st)
    | .ok priceData =>
      (.ok priceData.price,
        { st with cache := mapSet cacheKey ⟨priceData.price, now⟩ st.cache })
  match mapGet cacheKey st.cache with
  | some cached =>
    if now - cached.timestamp < st.cacheTimeout then (.ok cached.price, st)
    else fetchAndCache
  | none => fetchAndCache

/-- `AssetValuator.getPrice(base, quote)`: fetch (or cache-hit) the
price, then return `{ base: base.toUpperCase(), quote: quote.toUpperCase(),
price, timestamp: new Date() }` — the timestamp is always the wall-clock
time of this call. -/
def AssetValuator.getPrice
    (provider : String → String → Except JsError PriceData) (now : Int)
    (st : ValuatorState) (base quote : String) :
    Except JsError AssetPrice × ValuatorState :=
  match getCachedOrFetchPrice provider now st base quote with
  | (.error e, st') => (.error e, st')
  | (.ok price, st') =>
    (.ok ⟨jsToUpper base, jsToUpper quote, price, now⟩, st')

/-- `AssetValuator.convert({from, to, amount})`.  The third component of
the output records, in order, the symbols passed to
`getCachedOrFetchPrice` — the price lookups performed. -/
def AssetValuator.convert
    (provider : String → String → Except JsError PriceData) (now : Int)
    (st : ValuatorState) (fromCur toCur : String) (amount : ℚ) :
    Except JsError ℚ × ValuatorState × List String :=
  if jsToUpper fromCur = jsToUpper toCur then (.ok amount, st, [])
  else if jsToUpper toCur = "USD" then
    match getCachedOrFetchPrice provider now st fromCur "USD" with
    | (.error e, st') => (.error e, st', [fromCur])
    | (.ok price, st') => (.ok (price * amount), st', [fromCur])
  else if jsToUpper fromCur = "USD" then
    match getCachedOrFetchPrice provider now st toCur "USD" with
    | (.error e, st') => (.error e, st', [toCur])
    | (.ok price, st') => (.ok (amount / price), st', [toCur])
  else
    match getCachedOrFetchPrice provider now st fromCur "USD" with
    | (.error e, st1) => (.error e, st1, [fromCur])
    | (.ok fromPriceInUSD, st1) =>
      match getCachedOrFetchPrice provider now st1 toCur "USD" with
      | (.error e, st2) => (.error e, st2, [fromCur, toCur])
      | (.ok toPriceInUSD, st2) =>
        (.ok ((fromPriceInUSD / toPriceInUSD) * amount), st2,
          [fromCur, toCur])

/-- The exponential-backoff delay sequence started at retry count `r` and
running for `d` cycles: `A·2^r, A·2^(r+1), …, A·2^(r+d-1)`. -/
def backoffSleeps (A r d : Nat) : List Nat :=
  match d with
  | 0 => []
  | d+1 => A * 2 ^ r :: backoffSleeps A (r+1) d

lemma insertionSort_unique {s l : List ℚ} (hp : List.Perm s l)
    (hs : s.Sorted (· ≤ ·)) : s = List.insertionSort (· ≤ ·) l :=
  List.eq_of_perm_of_sorted
    (hp.trans (List.perm_insertionSort (· ≤ ·) l).symm) hs
    (List.sorted_insertionSort (· ≤ ·) l)

/-- C1 (amended: the median is the element at index `⌊n/2⌋` of the
ascending sort — the upper-middle element on even counts, not the
lower-middle one): for every non-empty price list, the consensus
reduction returns `r` iff `r` is what the spec's recipe produces on a
sorted permutation of the prices with that median convention: one price
is returned unchanged; otherwise prices whose relative deviation from the
median exceeds 10% are discarded, the median itself is returned when
fewer than `count × consensusThreshold` prices survive, and the
arithmetic mean of the survivors is returned otherwise. -/
theorem calculateConsensusPrice_spec (θ : ℚ) (prices : List ℚ) (r : ℚ)
    (h : prices ≠ []) :
    calculateConsensusPrice θ prices = some r ↔
      consensusSpecWith (fun n => n / 2) θ prices r := by
  match prices with
  | [] => exact absurd rfl h
  | [p] =>
    constructor
    · intro hr
      exact Or.inl ⟨p, rfl, (Option.some.injEq _ _).mp hr.symm⟩
    · rintro (⟨q, hq, hr⟩ | ⟨hlen, _⟩)
      · cases hq; simpa [calculateConsensusPrice] using hr.symm
      · simp at hlen
  | p :: q :: rest =>
    have hcore : calculateConsensusPrice θ (p :: q :: rest) = some r ↔
        consensusFromSorted (fun n => n / 2) θ (p :: q :: rest).length
          (List.insertionSort (· ≤ ·) (p :: q :: rest)) r := by
      simp only [calculateConsensusPrice, consensusFromSorted]
      split
      · simp [eq_comm]
      · simp [eq_comm]
    constructor
    · intro hr
      refine Or.inr ⟨by simp, List.insertionSort (· ≤ ·) (p :: q :: rest),
        List.perm_insertionSort _ _, List.sorted_insertionSort _ _, ?_⟩
      exact hcore.mp hr
    · rintro (⟨x, hx, _⟩ | ⟨_, s, hperm, hsort, hc⟩)
      · simp at hx
      · rw [insertionSort_unique hperm hsort] at hc
        exact hcore.mpr hc

/-- Witness for C1's amended theorem at the spec's own example
`[100, 101, 102]`, threshold `0.5`: the reduction yields the mean `101`,
and the spec recipe (upper-median convention) accepts `101`. -/
theorem calculateConsensusPrice_spec_witness :
    ([(100:ℚ), 101, 102] ≠ []) ∧
      consensusSpecWith (fun n => n / 2) (1/2) [(100:ℚ), 101, 102] 101 :=
  ⟨by decide,
    (calculateConsensusPrice_spec (1/2) [100, 101, 102] 101 (by decide)).mp
      (by norm_num [calculateConsensusPrice, isNonOutlier,
        List.insertionSort, List.orderedInsert])⟩

/-- C1 counterexample: with prices `[10, 30]` and threshold `0.5` the code
returns `30` (its median is the upper-middle element of the even-length
sort), while the claim's recipe — median as the lower-middle element —
does not accept `30` (it produces `10`). -/
theorem consensus_lowerMedian_counterexample :
    calculateConsensusPrice (1/2) [10, 30] = some 30 ∧
      ¬ consensusSpecWith (fun n => (n - 1) / 2) (1/2) [(10:ℚ), 30] 30 := by
  constructor
  · norm_num [calculateConsensusPrice, isNonOutlier,
      List.insertionSort, List.orderedInsert]
  · rintro (⟨x, hx, _⟩ | ⟨_, s, hperm, hsort, hc⟩)
    · simp at hx
    · rw [insertionSort_unique hperm hsort] at hc
      rw [show List.insertionSort (· ≤ ·) [(10:ℚ), 30] = [10, 30] by
        norm_num [List.insertionSort, List.orderedInsert]] at hc
      norm_num [consensusFromSorted, isNonOutlier] at hc

/-- C2 counterexample: on quotes `[10, 1000]` with threshold `0.5`, one
price (the `1000` that equals the code's median) survives the filter, and
`1 < 2 × 0.5` is false, so the fallback branch is *not* taken; moreover
the result `1000` differs from the spec's (lower-middle) median `10`. -/
theorem consensus_total_disagreement_counterexample :
    ¬ ( (((consensusSurvivors [(10:ℚ), 1000]).length : ℚ) <
          (([(10:ℚ), 1000]).length : ℚ) * (1/2)) ∧
        calculateConsensusPrice (1/2) [10, 1000] =
          some (specLowerMedian [10, 1000]) ) := by
  rintro ⟨h1, -⟩
  rw [show consensusSurvivors [(10:ℚ), 1000] = [1000] by
    norm_num [consensusSurvivors, consensusMedian, isNonOutlier,
      List.insertionSort, List.orderedInsert]] at h1
  norm_num at h1

/-- C2 (amended): on quotes `[10, 1000]` with threshold `0.5`, the outlier
filter keeps exactly `[1000]`; the surviving count `1` is *not* below
`2 × 0.5 = 1`, so the mean branch runs and returns `1000` — the mean of
the single survivor, which coincides with the element the code picks as
median (the upper-middle one). -/
theorem consensus_total_disagreement_amended :
    consensusSurvivors [(10:ℚ), 1000] = [1000] ∧
    ¬ (((consensusSurvivors [(10:ℚ), 1000]).length : ℚ) <
        (([(10:ℚ), 1000]).length : ℚ) * (1/2)) ∧
    calculateConsensusPrice (1/2) [10, 1000] = some 1000 ∧
    consensusMedian [(10:ℚ), 1000] = 1000 := by
  refine ⟨?_, ?_, ?_, ?_⟩
  · norm_num [consensusSurvivors, consensusMedian, isNonOutlier,
      List.insertionSort, List.orderedInsert]
  · rw [show consensusSurvivors [(10:ℚ), 1000] = [1000] by
      norm_num [consensusSurvivors, consensusMedian, isNonOutlier,
        List.insertionSort, List.orderedInsert]]
    norm_num
  · norm_num [calculateConsensusPrice, isNonOutlier,
      List.insertionSort, List.orderedInsert]
  · norm_num [consensusMedian, List.insertionSort, List.orderedInsert]

/-! ## Rate limiter theorems -/

lemma execute_step_throw {α : Type} {opts : RateLimiterOptions}
    {now : Nat → Int} {op : Nat → Except JsError α}
    {fuel entry opIdx : Nat} {st : RLState}
    (h1 : opts.maxRequests ≤
      (pruneRequests opts.windowMs (now entry) st.requests).length)
    (h2 : opts.maxRetries ≤ st.retryCount.getD 0) :
    RateLimiter.execute opts now op (fuel+1) entry opIdx st =
      ⟨.rateLimitExceeded,
       ⟨pruneRequests opts.windowMs (now entry) st.requests, none⟩, [], 0⟩ := by
  simp only [RateLimiter.execute]
  rw [if_pos h1, if_pos h2]

lemma execute_step_backoff {α : Type} {opts : RateLimiterOptions}
    {now : Nat → Int} {op : Nat → Except JsError α}
    {fuel entry opIdx : Nat} {st : RLState}
    (h1 : opts.maxRequests ≤
      (pruneRequests opts.windowMs (now entry) st.requests).length)
    (h2 : ¬ opts.maxRetries ≤ st.retryCount.getD 0) :
    RateLimiter.execute opts now op (fuel+1) entry opIdx st =
      (let r := RateLimiter.execute opts now op fuel (entry+1) opIdx
        ⟨pruneRequests opts.windowMs (now entry) st.requests,
         some (st.retryCount.getD 0 + 1)⟩
       ⟨r.result, r.state,
        opts.retryAfterMs * 2 ^ st.retryCount.getD 0 :: r.sleeps, r.opCalls⟩) := by
  simp only [RateLimiter.execute]
  rw [if_pos h1, if_neg h2]

lemma execute_step_ok {α : Type} {opts : RateLimiterOptions}
    {now : Nat → Int} {op : Nat → Except JsError α}
    {fuel entry opIdx : Nat} {st : RLState} {v : α}
    (h1 : ¬ opts.maxRequests ≤
      (pruneRequests opts.windowMs (now entry) st.requests).length)
    (hop : op opIdx = .ok v) :
    RateLimiter.execute opts now op (fuel+1) entry opIdx st =
      ⟨.ok v,
       ⟨pruneRequests opts.windowMs (now entry) st.requests ++ [now entry],
        none⟩, [], 1⟩ := by
  simp only [RateLimiter.execute]
  rw [if_neg h1, hop]

lemma execute_step_opError {α : Type} {opts : RateLimiterOptions}
    {now : Nat → Int} {op : Nat → Except JsError α}
    {fuel entry opIdx : Nat} {st : RLState} {e : JsError}
    (h1 : ¬ opts.maxRequests ≤
      (pruneRequests opts.windowMs (now entry) st.requests).length)
    (hop : op opIdx = .error e) (h429 : RateLimiter.is429Error e = false) :
    RateLimiter.execute opts now op (fuel+1) entry opIdx st =
      ⟨.opError e,
       ⟨pruneRequests opts.windowMs (now entry) st.requests ++ [now entry],
        none⟩, [], 1⟩ := by
  simp only [RateLimiter.execute]
  rw [if_neg h1, hop]
  simp [h429]

lemma execute_saturated_general {α : Type} (opts : RateLimiterOptions)
    (now : Nat → Int) (op : Nat → Except JsError α) :
    ∀ (d fuel entry opIdx : Nat) (st : RLState),
      st.retryCount.getD 0 + d = opts.maxRetries →
      (∀ i, i ≤ d → opts.maxRequests ≤
        (prunedChain opts.windowMs now entry i st.requests).length) →
      d + 1 ≤ fuel →
      RateLimiter.execute opts now op fuel entry opIdx st =
        ⟨.rateLimitExceeded,
         ⟨prunedChain opts.windowMs now entry d st.requests, none⟩,
         backoffSleeps opts.retryAfterMs (st.retryCount.getD 0) d, 0⟩ := by
  intro d
  induction d with
  | zero =>
    intro fuel entry opIdx st hret hSat hfuel
    obtain ⟨f, rfl⟩ : ∃ f, fuel = f + 1 := ⟨fuel - 1, by omega⟩
    rw [execute_step_throw (hSat 0 (by omega)) (by omega)]
    rfl
  | succ d ih =>
    intro fuel entry opIdx st hret hSat hfuel
    obtain ⟨f, rfl⟩ : ∃ f, fuel = f + 1 := ⟨fuel - 1, by omega⟩
    rw [execute_step_backoff (hSat 0 (by omega)) (by omega)]
    rw [ih f (entry+1) opIdx
      ⟨pruneRequests opts.windowMs (now entry) st.requests,
       some (st.retryCount.getD 0 + 1)⟩
      (by simp; omega) (fun i hi => hSat (i+1) (by omega)) (by omega)]
    rfl

/-- C3: when the sliding window is saturated at the initial call and at
every retry re-entry, `execute` performs exactly `maxRetries`
backoff-and-retry cycles — sleeping `retryAfterMs·2^0, …,
retryAfterMs·2^(maxRetries-1)` — and then fails with `RateLimitExceeded`,
never invoking the operation; `maxRetries + 1` fuel suffices, so the call
terminates rather than looping forever. -/
theorem execute_saturated_rateLimitExceeded {α : Type}
    (opts : RateLimiterOptions) (now : Nat → Int)
    (op : Nat → Except JsError α) (fuel : Nat) (st : RLState)
    (hrc : st.retryCount = none)
    (hSat : ∀ i, i ≤ opts.maxRetries → opts.maxRequests ≤
      (prunedChain opts.windowMs now 0 i st.requests).length)
    (hfuel : opts.maxRetries + 1 ≤ fuel) :
    (RateLimiter.execute opts now op fuel 0 0 st).result =
      .rateLimitExceeded ∧
    (RateLimiter.execute opts now op fuel 0 0 st).sleeps =
      backoffSleeps opts.retryAfterMs 0 opts.maxRetries ∧
    (RateLimiter.execute opts now op fuel 0 0 st).sleeps.length =
      opts.maxRetries ∧
    (RateLimiter.execute opts now op fuel 0 0 st).opCalls = 0 := by
  have hlen : ∀ A r d, (backoffSleeps A r d).length = d := by
    intro A r d
    induction d generalizing r with
    | zero => rfl
    | succ d ih => simp [backoffSleeps, ih]
  have h := execute_saturated_general opts now op opts.maxRetries fuel 0 0 st
    (by simp [hrc]) hSat hfuel
  rw [h, hrc]
  exact ⟨rfl, rfl, hlen _ _ _, rfl⟩

/-- Witness for C3 with the spec's exhaustion scenario `maxRetries = 1`
(window `maxRequests = 1` permanently saturated by one fresh timestamp):
the call fails with `RateLimitExceeded` after exactly one backoff of
`retryAfterMs·2^0 = 100`, with the operation never invoked. -/
theorem execute_saturated_rateLimitExceeded_witness :
    (RateLimiter.execute ⟨1, 1000, 100, 1⟩ (fun _ => 0)
      (fun _ => (.error ⟨some 500, none, none⟩ : Except JsError Unit))
      2 0 0 ⟨[0], none⟩).result = .rateLimitExceeded ∧
    (RateLimiter.execute ⟨1, 1000, 100, 1⟩ (fun _ => 0)
      (fun _ => (.error ⟨some 500, none, none⟩ : Except JsError Unit))
      2 0 0 ⟨[0], none⟩).sleeps = backoffSleeps 100 0 1 ∧
    (RateLimiter.execute ⟨1, 1000, 100, 1⟩ (fun _ => 0)
      (fun _ => (.error ⟨some 500, none, none⟩ : Except JsError Unit))
      2 0 0 ⟨[0], none⟩).sleeps.length = 1 ∧
    (RateLimiter.execute ⟨1, 1000, 100, 1⟩ (fun _ => 0)
      (fun _ => (.error ⟨some 500, none, none⟩ : Except JsError Unit))
      2 0 0 ⟨[0], none⟩).opCalls = 0 :=
  execute_saturated_rateLimitExceeded ⟨1, 1000, 100, 1⟩ (fun _ => 0)
    (fun _ => (.error ⟨some 500, none, none⟩ : Except JsError Unit))
    2 ⟨[0], none⟩ rfl (by decide) (by decide)

/-- C4: evaluation at the failing input.  `maxRetries = 1`, a roomy
window (`maxRequests = 3`, `windowMs` huge) and an operation that always
rejects with HTTP status 429: the operation is invoked **3** times — more
than the `maxRetries = 1` ceiling the claim asserts — because
`retryCount.delete(key)` on every successful window entry resets the
counter the 429 handler reads, so the throttling-retry path is bounded
only by window saturation (and, with `windowMs` below the backoff delay,
by nothing at all).  The eventual failure is the window path's
`RateLimitExceeded`. -/
theorem execute_429_retries_exceed_maxRetries :
    RateLimiter.execute ⟨3, 1000000, 100, 1⟩ (fun i => 100 * i)
      (fun _ => (.error ⟨some 429, none, none⟩ : Except JsError Unit))
      10 0 0 ⟨[], none⟩ =
      ⟨.rateLimitExceeded, ⟨[0, 100, 200], none⟩, [100, 100, 100], 3⟩ ∧
    ¬ ((RateLimiter.execute ⟨3, 1000000, 100, 1⟩ (fun i => 100 * i)
      (fun _ => (.error ⟨some 429, none, none⟩ : Except JsError Unit))
      10 0 0 ⟨[], none⟩).opCalls ≤
        (⟨3, 1000000, 100, 1⟩ : RateLimiterOptions).maxRetries + 1) := by
  constructor
  · decide
  · decide

/-! ## Cache theorems -/

lemma mapGet_mapSet_self {β : Type} (k : String) (v : β) (l : List (String × β)) :
    mapGet k (mapSet k v l) = some v := by
  induction l with
  | nil => simp [mapGet, mapSet]
  | cons hd tl ih =>
    by_cases h : hd.1 = k
    · simp [mapGet, mapSet, h]
    · simpa [mapGet, mapSet, h] using ih

lemma mapGet_eq_none_of_not_mem {β : Type} (k : String)
    (l : List (String × β)) (h : ∀ a ∈ l, a.1 ≠ k) :
    mapGet k l = none := by
  induction l with
  | nil => rfl
  | cons hd tl ih =>
    simp only [mapGet, if_neg (h hd (by simp))]
    exact ih (fun a ha => h a (by simp [ha]))

lemma mapGet_mapDelete_self {β : Type} (k : String) (l : List (String × β))
    (hnd : l.Pairwise (fun a b => a.1 ≠ b.1)) :
    mapGet k (mapDelete k l) = none := by
  induction l with
  | nil => simp [mapGet, mapDelete]
  | cons hd tl ih =>
    rcases List.pairwise_cons.mp hnd with ⟨hhd, htl⟩
    by_cases h : hd.1 = k
    · subst h
      simp only [mapDelete, if_pos rfl]
      exact mapGet_eq_none_of_not_mem _ tl (fun a ha => (hhd a ha).symm)
    · simp only [mapDelete, if_neg h, mapGet, if_neg h]
      exact ih htl

lemma mapSet_length_le {β : Type} (k : String) (v : β) (l : List (String × β)) :
    (mapSet k v l).length ≤ l.length + 1 := by
  induction l with
  | nil => simp [mapSet]
  | cons hd tl ih =>
    by_cases h : hd.1 = k
    · simp [mapSet, h]
    · simp only [mapSet, if_neg h, List.length_cons]
      omega

lemma mapDelete_length {β : Type} (k : String) (l : List (String × β)) {v : β}
    (h : mapGet k l = some v) : (mapDelete k l).length + 1 = l.length := by
  induction l with
  | nil => simp [mapGet] at h
  | cons hd tl ih =>
    by_cases hk : hd.1 = k
    · simp [mapDelete, hk]
    · simp only [mapGet, if_neg hk] at h
      simp only [mapDelete, if_neg hk, List.length_cons]
      rw [← ih h]

/-- C5: for every backend (in-memory, localStorage, IndexedDB), with the
backend available and no injected failure, an entry stored at `timestamp`
with time-to-live `ttl`: a `get` at time `now` returns the stored value
when `now - timestamp < ttl`; when `now - timestamp ≥ ttl` the `get`
returns `none` and removes the entry from that backend's store, and a
subsequent `set` for the same key stores a fresh entry (new value, new
timestamp, new ttl) — removal then reinsertion, never an in-place TTL
extension.  (`hsize` keeps the store within `maxSize` so the reinsertion
is not evicted; `hnd` is key-uniqueness, an invariant of every JS
key-value store.) -/
theorem edgeCache_ttl_lazy_expiry {α : Type} (kind : StorageKind)
    (opts : EdgeCacheOptions) (env : CacheEnv) (key : String)
    (e : CacheEntry α) (st : EdgeCacheState α) (now : Int)
    (hkind : opts.storage = kind)
    (havail : backendAvailable kind env st)
    (hnd : (activeStore kind st).Pairwise (fun a b => a.1 ≠ b.1))
    (hent : mapGet key (activeStore kind st) = some e)
    (hsize : (activeStore kind st).length ≤ opts.maxSize) :
    (now - e.timestamp < e.ttl →
      EdgeCache.get opts env now false key st = (some e.data, st)) ∧
    (e.ttl ≤ now - e.timestamp →
      (EdgeCache.get opts env now false key st).1 = none ∧
      mapGet key
        (activeStore kind (EdgeCache.get opts env now false key st).2) =
        none ∧
      ∀ (t2 : Int) (v2 : α) (ttl2 : Option Int),
        mapGet key (activeStore kind
          (EdgeCache.set opts env t2 false key v2 ttl2
            (EdgeCache.get opts env now false key st).2)) =
          some ⟨v2, t2, ttl2.getD opts.defaultTTL⟩) := by
  cases kind with
  | memory =>
    simp only [activeStore] at hnd hent hsize
    simp only [EdgeCache.get, hkind, hent]
    constructor
    · intro hfresh
      rw [if_pos hfresh]
    · intro hexp
      rw [if_neg (by omega : ¬ now - e.timestamp < e.ttl)]
      refine ⟨rfl, mapGet_mapDelete_self key _ hnd, ?_⟩
      intro t2 v2 ttl2
      simp only [EdgeCache.set, hkind, activeStore]
      have hlen : (mapSet key (⟨v2, t2, ttl2.getD opts.defaultTTL⟩ : CacheEntry α)
          (mapDelete key st.memoryCache)).length ≤ opts.maxSize := by
        have h1 := mapSet_length_le key
          (⟨v2, t2, ttl2.getD opts.defaultTTL⟩ : CacheEntry α)
          (mapDelete key st.memoryCache)
        have h2 := mapDelete_length key st.memoryCache hent
        omega
      rw [if_neg (by omega : ¬ opts.maxSize <
        (mapSet key (⟨v2, t2, ttl2.getD opts.defaultTTL⟩ : CacheEntry α)
          (mapDelete key st.memoryCache)).length)]
      exact mapGet_mapSet_self key _ _
  | localStorage =>
    simp only [backendAvailable] at havail
    simp only [activeStore] at hnd hent hsize
    simp only [EdgeCache.get, hkind, havail, if_true, Bool.false_eq_true,
      if_false, hent]
    constructor
    · intro hfresh
      rw [if_pos hfresh]
    · intro hexp
      rw [if_neg (by omega : ¬ now - e.timestamp < e.ttl)]
      refine ⟨rfl, mapGet_mapDelete_self key _ hnd, ?_⟩
      intro t2 v2 ttl2
      simp only [EdgeCache.set, hkind, havail, if_true, Bool.false_eq_true,
        if_false, activeStore]
      have h1 := mapSet_length_le key
        (⟨v2, t2, ttl2.getD opts.defaultTTL⟩ : CacheEntry α)
        (mapDelete key st.localStore)
      have h2 := mapDelete_length key st.localStore hent
      rw [if_neg (by omega : ¬ opts.maxSize <
        (mapSet key (⟨v2, t2, ttl2.getD opts.defaultTTL⟩ : CacheEntry α)
          (mapDelete key st.localStore)).length)]
      exact mapGet_mapSet_self key _ _
  | indexedDB =>
    simp only [backendAvailable] at havail
    simp only [activeStore] at hnd hent hsize
    simp only [EdgeCache.get, hkind, havail, if_true, Bool.false_eq_true,
      if_false, hent]
    constructor
    · intro hfresh
      rw [if_pos hfresh]
    · intro hexp
      rw [if_neg (by omega : ¬ now - e.timestamp < e.ttl)]
      refine ⟨rfl, mapGet_mapDelete_self key _ hnd, ?_⟩
      intro t2 v2 ttl2
      simp only [EdgeCache.set, hkind, havail, if_true, Bool.false_eq_true,
        if_false, activeStore]
      exact mapGet_mapSet_self key _ _

/-- Witness for C5 on the localStorage backend with the spec's TTL
scenario (`ttl = 50`, stored value `42` at `t = 0`): the read at `t+10`
returns `42`; the read at `t+60` returns `none` and removes the entry;
a subsequent `set` (value `7` at `t = 70`) stores a fresh entry. -/
theorem edgeCache_ttl_lazy_expiry_witness :
    EdgeCache.get (⟨60000, 1000, .localStorage⟩ : EdgeCacheOptions) ⟨true⟩
      10 false "BTC-usd"
      (⟨[], [("BTC-usd", ⟨42, 0, 50⟩)], [], false⟩ : EdgeCacheState Nat) =
      (some 42, ⟨[], [("BTC-usd", ⟨42, 0, 50⟩)], [], false⟩) ∧
    (EdgeCache.get (⟨60000, 1000, .localStorage⟩ : EdgeCacheOptions) ⟨true⟩
      60 false "BTC-usd"
      (⟨[], [("BTC-usd", ⟨42, 0, 50⟩)], [], false⟩ : EdgeCacheState Nat)).1 =
      none ∧
    mapGet "BTC-usd" (activeStore .localStorage
      (EdgeCache.get (⟨60000, 1000, .localStorage⟩ : EdgeCacheOptions) ⟨true⟩
        60 false "BTC-usd"
        (⟨[], [("BTC-usd", ⟨42, 0, 50⟩)], [], false⟩ :
          EdgeCacheState Nat)).2) = none ∧
    mapGet "BTC-usd" (activeStore .localStorage
      (EdgeCache.set (⟨60000, 1000, .localStorage⟩ : EdgeCacheOptions) ⟨true⟩
        70 false "BTC-usd" 7 none
        (EdgeCache.get (⟨60000, 1000, .localStorage⟩ : EdgeCacheOptions)
          ⟨true⟩ 60 false "BTC-usd"
          (⟨[], [("BTC-usd", ⟨42, 0, 50⟩)], [], false⟩ :
            EdgeCacheState Nat)).2)) = some ⟨7, 70, 60000⟩ :=
  have h10 := edgeCache_ttl_lazy_expiry .localStorage
    ⟨60000, 1000, .localStorage⟩ ⟨true⟩ "BTC-usd" ⟨42, 0, 50⟩
    ⟨[], [("BTC-usd", ⟨42, 0, 50⟩)], [], false⟩ 10 rfl rfl (by decide)
    (by decide) (by decide)
  have h60 := edgeCache_ttl_lazy_expiry .localStorage
    ⟨60000, 1000, .localStorage⟩ ⟨true⟩ "BTC-usd" ⟨42, 0, 50⟩
    ⟨[], [("BTC-usd", ⟨42, 0, 50⟩)], [], false⟩ 60 rfl rfl (by decide)
    (by decide) (by decide)
  ⟨h10.1 (by decide), (h60.2 (by decide)).1, (h60.2 (by decide)).2.1,
    (h60.2 (by decide)).2.2 70 7 none⟩

/-- C6 counterexample: `storage = 'localStorage'`, capability present; a
write of `42` under key `"k"` fails (quota): the entry lands in the
in-memory fallback `Map`, but a subsequent (successful) `get` for `"k"`
returns `none`, not the fallback value — the localStorage read path never
consults `memoryCache`, contradicting the claim that the value written to
the fallback is returned by a subsequent get. -/
theorem edgeCache_writeFailure_get_counterexample :
    mapGet "k"
      (EdgeCache.set (⟨60000, 1000, .localStorage⟩ : EdgeCacheOptions)
        ⟨true⟩ 0 true "k" (42 : Nat) none
        (EdgeCacheState.empty false)).memoryCache = some ⟨42, 0, 60000⟩ ∧
    (EdgeCache.get (⟨60000, 1000, .localStorage⟩ : EdgeCacheOptions) ⟨true⟩
      10 false "k"
      (EdgeCache.set (⟨60000, 1000, .localStorage⟩ : EdgeCacheOptions)
        ⟨true⟩ 0 true "k" (42 : Nat) none
        (EdgeCacheState.empty false))).1 = none := by
  constructor
  · decide
  · decide

/-- C6 (amended): localStorage-backend failures never escalate — the
model's cache operations have no error channel because every `catch` in
the source only warns.  A failed write stores the entry in the in-memory
fallback `Map` and leaves the localStorage store untouched; but the `get`
path never consults that fallback: a read failure returns `none` with the
state unchanged, and any read after a failed write behaves exactly as if
the write had never happened. -/
theorem edgeCache_localStorage_failure_fallback {α : Type}
    (opts : EdgeCacheOptions) (env : CacheEnv) (st : EdgeCacheState α)
    (key : String) (v : α) (ttl : Option Int) (now : Int)
    (hkind : opts.storage = .localStorage)
    (havail : env.hasLocalStorage = true) :
    (EdgeCache.set opts env now true key v ttl st).memoryCache =
      mapSet key ⟨v, now, ttl.getD opts.defaultTTL⟩ st.memoryCache ∧
    (EdgeCache.set opts env now true key v ttl st).localStore =
      st.localStore ∧
    (∀ (now2 : Int) (readFails : Bool),
      (EdgeCache.get opts env now2 readFails key
        (EdgeCache.set opts env now true key v ttl st)).1 =
      (EdgeCache.get opts env now2 readFails key st).1) ∧
    (∀ (now2 : Int), EdgeCache.get opts env now2 true key st = (none, st)) := by
  refine ⟨?_, ?_, ?_, ?_⟩
  · simp [EdgeCache.set, hkind, havail]
  · simp [EdgeCache.set, hkind, havail]
  · intro now2 readFails
    simp only [EdgeCache.set, hkind, havail, if_true, EdgeCache.get]
    cases readFails with
    | true => simp
    | false =>
      cases hml : mapGet key st.localStore with
      | none => simp [hml]
      | some entry =>
        by_cases hf : now2 - entry.timestamp < entry.ttl
        · simp [hml, hf]
        · simp [hml, hf]
  · intro now2
    simp [EdgeCache.get, hkind, havail]

/-- Witness for C6's amended theorem at the counterexample input: the
failed write of `42` lands in `memoryCache`, leaves localStorage alone,
and a later read returns what it would have returned anyway. -/
theorem edgeCache_localStorage_failure_fallback_witness :
    (EdgeCache.set (⟨60000, 1000, .localStorage⟩ : EdgeCacheOptions) ⟨true⟩
      0 true "k" (42 : Nat) none (EdgeCacheState.empty false)).memoryCache =
      mapSet "k" ⟨42, 0, 60000⟩ (EdgeCacheState.empty false).memoryCache ∧
    (EdgeCache.set (⟨60000, 1000, .localStorage⟩ : EdgeCacheOptions) ⟨true⟩
      0 true "k" (42 : Nat) none (EdgeCacheState.empty false)).localStore =
      (EdgeCacheState.empty (α := Nat) false).localStore ∧
    (∀ (now2 : Int) (readFails : Bool),
      (EdgeCache.get (⟨60000, 1000, .localStorage⟩ : EdgeCacheOptions)
        ⟨true⟩ now2 readFails "k"
        (EdgeCache.set (⟨60000, 1000, .localStorage⟩ : EdgeCacheOptions)
          ⟨true⟩ 0 true "k" (42 : Nat) none (EdgeCacheState.empty false))).1 =
      (EdgeCache.get (⟨60000, 1000, .localStorage⟩ : EdgeCacheOptions)
        ⟨true⟩ now2 readFails "k" (EdgeCacheState.empty false)).1) ∧
    (∀ (now2 : Int),
      EdgeCache.get (⟨60000, 1000, .localStorage⟩ : EdgeCacheOptions) ⟨true⟩
        now2 true "k" (EdgeCacheState.empty (α := Nat) false) =
        (none, EdgeCacheState.empty false)) :=
  edgeCache_localStorage_failure_fallback ⟨60000, 1000, .localStorage⟩
    ⟨true⟩ (EdgeCacheState.empty false) "k" 42 none 0 rfl rfl

/-! ## Valuator facade theorems -/

/-- C9: `convert({from, to, amount})` — same currency (case-insensitively)
returns the amount unchanged with **no** price lookup; `to = USD` returns
`priceUSD(from) × amount` from one lookup of `from`; `from = USD` returns
`amount / priceUSD(to)` from one lookup of `to`; otherwise the result is
`(priceUSD(from) / priceUSD(to)) × amount` from exactly the two lookups
`[from, to]` against USD.  The third output component lists the lookups
performed. -/
theorem assetValuator_convert_spec
    (provider : String → String → Except JsError PriceData) (now : Int)
    (st : ValuatorState) (fromCur toCur : String) (amount : ℚ) :
    (jsToUpper fromCur = jsToUpper toCur →
      AssetValuator.convert provider now st fromCur toCur amount =
        (.ok amount, st, [])) ∧
    (jsToUpper fromCur ≠ jsToUpper toCur → jsToUpper toCur = "USD" →
      ∀ p st', getCachedOrFetchPrice provider now st fromCur "USD" =
          (.ok p, st') →
        AssetValuator.convert provider now st fromCur toCur amount =
          (.ok (p * amount), st', [fromCur])) ∧
    (jsToUpper fromCur ≠ jsToUpper toCur → jsToUpper toCur ≠ "USD" →
      jsToUpper fromCur = "USD" →
      ∀ p st', getCachedOrFetchPrice provider now st toCur "USD" =
          (.ok p, st') →
        AssetValuator.convert provider now st fromCur toCur amount =
          (.ok (amount / p), st', [toCur])) ∧
    (jsToUpper fromCur ≠ jsToUpper toCur → jsToUpper toCur ≠ "USD" →
      jsToUpper fromCur ≠ "USD" →
      ∀ p1 st1 p2 st2,
        getCachedOrFetchPrice provider now st fromCur "USD" =
          (.ok p1, st1) →
        getCachedOrFetchPrice provider now st1 toCur "USD" =
          (.ok p2, st2) →
        AssetValuator.convert provider now st fromCur toCur amount =
          (.ok ((p1 / p2) * amount), st2, [fromCur, toCur])) := by
  refine ⟨?_, ?_, ?_, ?_⟩
  · intro hsame
    simp only [AssetValuator.convert, if_pos hsame]
  · intro hne husd p st' hget
    simp only [AssetValuator.convert, if_neg hne, if_pos husd, hget]
  · intro hne hto husd p st' hget
    simp only [AssetValuator.convert, if_neg hne, if_neg hto, if_pos husd,
      hget]
  · intro hne hto hfrom p1 st1 p2 st2 hget1 hget2
    simp only [AssetValuator.convert, if_neg hne, if_neg hto, if_neg hfrom,
      hget1, hget2]

/-- Witness for C9: converting 2 BTC to ETH with fresh lookups
(BTC at 50000 USD, ETH at 2500 USD) performs exactly the two lookups
`["BTC", "ETH"]` and yields `(50000 / 2500) × 2`. -/
theorem assetValuator_convert_spec_witness :
    AssetValuator.convert
      (fun s _ => if s = "BTC" then .ok ⟨"BTC", 50000, 0⟩
        else if s = "ETH" then .ok ⟨"ETH", 2500, 0⟩
        else .error ⟨none, none, none⟩)
      200 ⟨[], 60000⟩ "BTC" "ETH" 2 =
      (.ok ((50000 / 2500) * 2),
       ⟨[("BTC_USD", ⟨50000, 200⟩), ("ETH_USD", ⟨2500, 200⟩)], 60000⟩,
       ["BTC", "ETH"]) :=
  (assetValuator_convert_spec
      (fun s _ => if s = "BTC" then .ok ⟨"BTC", 50000, 0⟩
        else if s = "ETH" then .ok ⟨"ETH", 2500, 0⟩
        else .error ⟨none, none, none⟩)
      200 ⟨[], 60000⟩ "BTC" "ETH" 2).2.2.2
    (by decide) (by decide) (by decide)
    50000 ⟨[("BTC_USD", ⟨50000, 200⟩)], 60000⟩
    2500 ⟨[("BTC_USD", ⟨50000, 200⟩), ("ETH_USD", ⟨2500, 200⟩)], 60000⟩
    rfl rfl

/-- C10: the quote returned by `getPrice(base, quote)` is stamped with the
wall-clock time `now` of that call — both on a facade-cache hit (where no
provider fetch happens: the result is the same for every provider) and on
a miss followed by a successful fetch — so a caller cannot distinguish a
hit from a fresh fetch by the timestamp; on a hit the price was actually
obtained at the cached `timestamp`, which the hit condition only bounds
to within `cacheTimeout` of `now`. -/
theorem assetValuator_getPrice_timestamp
    (provider : String → String → Except JsError PriceData) (now : Int)
    (st : ValuatorState) (base quote : String) :
    (∀ c, mapGet (getCacheKey base quote) st.cache = some c →
      now - c.timestamp < st.cacheTimeout →
      AssetValuator.getPrice provider now st base quote =
        (.ok ⟨jsToUpper base, jsToUpper quote, c.price, now⟩, st)) ∧
    (∀ priceData, mapGet (getCacheKey base quote) st.cache = none →
      provider base quote = .ok priceData →
      AssetValuator.getPrice provider now st base quote =
        (.ok ⟨jsToUpper base, jsToUpper quote, priceData.price, now⟩,
         ⟨mapSet (getCacheKey base quote) ⟨priceData.price, now⟩ st.cache,
          st.cacheTimeout⟩)) := by
  constructor
  · intro c hc hfresh
    simp only [AssetValuator.getPrice, getCachedOrFetchPrice, hc,
      if_pos hfresh]
  · intro priceData hc hp
    simp only [AssetValuator.getPrice, getCachedOrFetchPrice, hc, hp]

/-- Witness for C10: a cache hit (entry stored at `t = 100`, read at
`now = 200`, timeout 60000) returns a quote stamped `200` — the call
time, not the stored `100` — with an always-failing provider, so no
provider fetch can have produced it. -/
theorem assetValuator_getPrice_timestamp_witness :
    AssetValuator.getPrice (fun _ _ => .error ⟨none, none, none⟩) 200
      ⟨[("BTC_USD", ⟨50000, 100⟩)], 60000⟩ "BTC" "USD" =
      (.ok ⟨"BTC", "USD", 50000, 200⟩,
       ⟨[("BTC_USD", ⟨50000, 100⟩)], 60000⟩) :=
  have h := (assetValuator_getPrice_timestamp
      (fun _ _ => .error ⟨none, none, none⟩) 200
      ⟨[("BTC_USD", ⟨50000, 100⟩)], 60000⟩ "BTC" "USD").1
    ⟨50000, 100⟩ rfl (by decide)
  by rw [h]; rfl

/-! ## Aggregator single-symbol path theorems -/

lemma calculateConsensusPrice_isSome (θ : ℚ) (prices : List ℚ)
    (h : prices ≠ []) : ∃ r, calculateConsensusPrice θ prices = some r := by
  match prices with
  | [] => exact absurd rfl h
  | [p] => exact ⟨p, rfl⟩
  | p :: q :: rest =>
    simp only [calculateConsensusPrice]
    split
    · exact ⟨_, rfl⟩
    · exact ⟨_, rfl⟩

/-- C7 (amended with the proviso that the zero-quote error is not itself
classified as a throttling signal — `h429`, which fails exactly for
symbols containing the substring `"429"`): in the single-symbol path with
no fresh cache entry and an admitting rate-limiter window, providers are
consulted sequentially in priority order by `fetchFromProviders`
(failures skipped, early stop at `ceil(count × threshold)` quotes); the
operation runs exactly once; if at least one quote was collected the call
returns the consensus quote (uppercased symbol, fresh timestamp, written
through to the cache) and no provider failure surfaces; and the call
rejects with the `NoPriceData` error exactly when zero quotes were
collected. -/
theorem fetchPrice_single_spec (cfg : AggregatorConfig) (env : CacheEnv)
    (symbol currency : String) (st : AggregatorState) (t0 : Int)
    (now : Nat → Int) (opTime : Nat → Int)
    (provs : Nat → List (Except JsError PriceData)) (fuel : Nat)
    (hmiss : (EdgeCache.get cfg.cacheOpts env t0 false
      (symbol ++ "-" ++ currency) st.cache).1 = none)
    (hAdmit : ¬ cfg.rlOpts.maxRequests ≤
      (pruneRequests cfg.rlOpts.windowMs (now 0) st.rl.requests).length)
    (hfuel : 1 ≤ fuel)
    (h429 : RateLimiter.is429Error (noPriceDataError symbol) = false) :
    (fetchFromProviders cfg.consensusThreshold (provs 0).length (provs 0) []
        = [] →
      (DecentralizedAggregator.fetchPrice cfg env symbol currency st t0 now
        opTime provs fuel).result = .opError (noPriceDataError symbol)) ∧
    (∀ cp,
      calculateConsensusPrice cfg.consensusThreshold
        ((fetchFromProviders cfg.consensusThreshold (provs 0).length
          (provs 0) []).map (fun p => p.price)) = some cp →
      (DecentralizedAggregator.fetchPrice cfg env symbol currency st t0 now
        opTime provs fuel).result =
        .ok (⟨jsToUpper symbol, cp, opTime 0⟩,
          EdgeCache.set cfg.cacheOpts env (opTime 0) false
            (symbol ++ "-" ++ currency) ⟨jsToUpper symbol, cp, opTime 0⟩ none
            (EdgeCache.get cfg.cacheOpts env t0 false
              (symbol ++ "-" ++ currency) st.cache).2)) ∧
    ((DecentralizedAggregator.fetchPrice cfg env symbol currency st t0 now
        opTime provs fuel).result = .opError (noPriceDataError symbol) ↔
      fetchFromProviders cfg.consensusThreshold (provs 0).length (provs 0) []
        = []) ∧
    (DecentralizedAggregator.fetchPrice cfg env symbol currency st t0 now
      opTime provs fuel).opCalls = 1 := by
  obtain ⟨f, rfl⟩ : ∃ f, fuel = f + 1 := ⟨fuel - 1, by omega⟩
  have hpair : EdgeCache.get cfg.cacheOpts env t0 false
      (symbol ++ "-" ++ currency) st.cache =
      (none, (EdgeCache.get cfg.cacheOpts env t0 false
        (symbol ++ "-" ++ currency) st.cache).2) := by
    rw [← hmiss]
  have hfp : DecentralizedAggregator.fetchPrice cfg env symbol currency st t0
      now opTime provs (f+1) =
      RateLimiter.execute cfg.rlOpts now
        (fetchPriceOp cfg env symbol currency
          (EdgeCache.get cfg.cacheOpts env t0 false
            (symbol ++ "-" ++ currency) st.cache).2 provs opTime)
        (f+1) 0 0 st.rl := by
    rw [DecentralizedAggregator.fetchPrice, hpair]
  by_cases hres : fetchFromProviders cfg.consensusThreshold (provs 0).length
      (provs 0) [] = []
  · have hop : fetchPriceOp cfg env symbol currency
        (EdgeCache.get cfg.cacheOpts env t0 false
          (symbol ++ "-" ++ currency) st.cache).2 provs opTime 0 =
        .error (noPriceDataError symbol) := by
      simp [fetchPriceOp, hres]
    rw [hfp, execute_step_opError hAdmit hop h429]
    refine ⟨fun _ => rfl, ?_, by simp [hres], rfl⟩
    intro cp hcp
    rw [hres] at hcp
    simp [calculateConsensusPrice] at hcp
  · obtain ⟨cp0, hcp0⟩ := calculateConsensusPrice_isSome cfg.consensusThreshold
      ((fetchFromProviders cfg.consensusThreshold (provs 0).length
        (provs 0) []).map (fun p => p.price)) (by simpa using hres)
    have hop : fetchPriceOp cfg env symbol currency
        (EdgeCache.get cfg.cacheOpts env t0 false
          (symbol ++ "-" ++ currency) st.cache).2 provs opTime 0 =
        .ok (⟨jsToUpper symbol, cp0, opTime 0⟩,
          EdgeCache.set cfg.cacheOpts env (opTime 0) false
            (symbol ++ "-" ++ currency) ⟨jsToUpper symbol, cp0, opTime 0⟩ none
            (EdgeCache.get cfg.cacheOpts env t0 false
              (symbol ++ "-" ++ currency) st.cache).2) := by
      simp [fetchPriceOp, List.length_eq_zero, hres, hcp0]
    rw [hfp, execute_step_ok hAdmit hop]
    refine ⟨fun h => absurd h hres, ?_, by simp [hres], rfl⟩
    intro cp hcp
    rw [hcp0] at hcp
    cases hcp
    rfl

/-- Witness for C7's amended theorem: two providers, the first fails, the
second returns a 50000 quote — `fetchPrice` returns a quote priced 50000
(consensus of the single collected quote) with no error surfaced. -/
theorem fetchPrice_single_spec_witness :
    (DecentralizedAggregator.fetchPrice
      ⟨⟨1, 60000, 2000, 3⟩, ⟨60000, 500, .memory⟩, 1/2⟩ ⟨false⟩ "BTC" "usd"
      ⟨EdgeCacheState.empty false, ⟨[], none⟩⟩ 0 (fun _ => 0) (fun _ => 7)
      (fun _ => [.error ⟨some 500, none, none⟩, .ok ⟨"BTC", 50000, 5⟩])
      1).result =
      .ok (⟨jsToUpper "BTC", 50000, 7⟩,
        EdgeCache.set (⟨60000, 500, .memory⟩ : EdgeCacheOptions) ⟨false⟩ 7
          false ("BTC" ++ "-" ++ "usd") ⟨jsToUpper "BTC", 50000, 7⟩ none
          (EdgeCache.get (⟨60000, 500, .memory⟩ : EdgeCacheOptions) ⟨false⟩ 0
            false ("BTC" ++ "-" ++ "usd")
            (EdgeCacheState.empty false)).2) :=
  ((fetchPrice_single_spec
      ⟨⟨1, 60000, 2000, 3⟩, ⟨60000, 500, .memory⟩, 1/2⟩ ⟨false⟩ "BTC" "usd"
      ⟨EdgeCacheState.empty false, ⟨[], none⟩⟩ 0 (fun _ => 0) (fun _ => 7)
      (fun _ => [.error ⟨some 500, none, none⟩, .ok ⟨"BTC", 50000, 5⟩])
      1 rfl (by decide) (by decide) (by decide)).2.1) 50000
    (by norm_num [fetchFromProviders, calculateConsensusPrice])

/-- C7 counterexample: for the symbol `"429"`, a round in which every
provider fails produces the error message
`"No price data available for 429"`, which `is429Error` classifies as an
upstream throttling rejection (it contains `"429"`); the call is
therefore retried with backoff until the window saturates and rejects
with `RateLimitExceeded` — even though zero quotes were collected, the
caller does **not** see the `NoPriceData` error the claim promises. -/
theorem fetchPrice_429_symbol_counterexample :
    (DecentralizedAggregator.fetchPrice
      ⟨⟨1, 60000, 2000, 3⟩, ⟨60000, 500, .memory⟩, 1/2⟩ ⟨false⟩ "429" "usd"
      ⟨EdgeCacheState.empty false, ⟨[], none⟩⟩ 0 (fun i => 2000 * i)
      (fun _ => 0)
      (fun _ => [.error ⟨some 500, none, none⟩,
        .error ⟨some 500, none, none⟩]) 6).result = .rateLimitExceeded ∧
    fetchFromProviders (1/2) 2
      [.error ⟨some 500, none, none⟩, .error ⟨some 500, none, none⟩] []
      = [] ∧
    (DecentralizedAggregator.fetchPrice
      ⟨⟨1, 60000, 2000, 3⟩, ⟨60000, 500, .memory⟩, 1/2⟩ ⟨false⟩ "429" "usd"
      ⟨EdgeCacheState.empty false, ⟨[], none⟩⟩ 0 (fun i => 2000 * i)
      (fun _ => 0)
      (fun _ => [.error ⟨some 500, none, none⟩,
        .error ⟨some 500, none, none⟩]) 6).result ≠
      .opError (noPriceDataError "429") := by
  refine ⟨?_, ?_, ?_⟩
  · decide
  · decide
  · decide

/-! ## Aggregator batch path theorems -/

lemma mem_mapSet {β : Type} {x : String × β} {k : String} {v : β}
    {l : List (String × β)} (h : x ∈ mapSet k v l) : x = (k, v) ∨ x ∈ l := by
  induction l with
  | nil => simpa [mapSet] using h
  | cons hd tl ih =>
    by_cases hk : hd.1 = k
    · simp only [mapSet, if_pos hk] at h
      rcases List.mem_cons.mp h with h | h
      · exact Or.inl h
      · exact Or.inr (List.mem_cons.mpr (Or.inr h))
    · simp only [mapSet, if_neg hk] at h
      rcases List.mem_cons.mp h with h | h
      · exact Or.inr (List.mem_cons.mpr (Or.inl h))
      · rcases ih h with h | h
        · exact Or.inl h
        · exact Or.inr (List.mem_cons.mpr (Or.inr h))

lemma mapSet_keys {β : Type} {k' k : String} {v : β}
    {l : List (String × β)} (h : k' ∈ (mapSet k v l).map Prod.fst) :
    k' = k ∨ k' ∈ l.map Prod.fst := by
  rcases List.mem_map.mp h with ⟨x, hx, rfl⟩
  rcases mem_mapSet hx with h | h
  · subst h; exact Or.inl rfl
  · exact Or.inr (List.mem_map.mpr ⟨x, h, rfl⟩)

lemma groupBySymbolAux_nonempty (l : List PriceData) :
    ∀ (grouped : List (String × List PriceData)),
      (∀ x ∈ grouped, x.2 ≠ []) →
      ∀ x ∈ groupBySymbolAux grouped l, x.2 ≠ [] := by
  induction l with
  | nil => intro grouped h; exact h
  | cons price rest ih =>
    intro grouped h
    simp only [groupBySymbolAux]
    cases hm : mapGet (jsToUpper price.symbol) grouped with
    | some ps =>
      refine ih _ (fun x hx => ?_)
      rcases mem_mapSet hx with h1 | h1
      · subst h1; simp
      · exact h x h1
    | none =>
      refine ih _ (fun x hx => ?_)
      rcases List.mem_append.mp hx with h1 | h1
      · exact h x h1
      · simp only [List.mem_singleton] at h1
        subst h1; simp

lemma groupBySymbolAux_keys (l : List PriceData) :
    ∀ (grouped : List (String × List PriceData)) (k : String),
      k ∈ (groupBySymbolAux grouped l).map Prod.fst →
      k ∈ grouped.map Prod.fst ∨ ∃ p ∈ l, jsToUpper p.symbol = k := by
  induction l with
  | nil => intro grouped k h; exact Or.inl h
  | cons price rest ih =>
    intro grouped k h
    simp only [groupBySymbolAux] at h
    cases hm : mapGet (jsToUpper price.symbol) grouped with
    | some ps =>
      rw [hm] at h
      rcases ih _ k h with h1 | ⟨p, hp, hk⟩
      · rcases mapSet_keys h1 with h2 | h2
        · exact Or.inr ⟨price, by simp, h2.symm⟩
        · exact Or.inl h2
      · exact Or.inr ⟨p, by simp [hp], hk⟩
    | none =>
      rw [hm] at h
      rcases ih _ k h with h1 | ⟨p, hp, hk⟩
      · rw [List.map_append] at h1
        rcases List.mem_append.mp h1 with h2 | h2
        · exact Or.inl h2
        · simp only [List.map_cons, List.map_nil, List.mem_singleton] at h2
          exact Or.inr ⟨price, by simp, h2.symm⟩
      · exact Or.inr ⟨p, by simp [hp], hk⟩

lemma batchConsensusList_symbols (cfg : AggregatorConfig) (env : CacheEnv)
    (currency : String) (opTime : Int) :
    ∀ (g : List (String × List PriceData))
      (cacheSt : EdgeCacheState PriceData),
      (∀ x ∈ g, x.2 ≠ []) →
      (batchConsensusList cfg env currency opTime g cacheSt).1.map
        (fun p => p.symbol) = g.map Prod.fst := by
  intro g
  induction g with
  | nil => intro cacheSt _; rfl
  | cons hd rest ih =>
    intro cacheSt h
    have hne : hd.2 ≠ [] := h hd (by simp)
    obtain ⟨cp, hcp⟩ := calculateConsensusPrice_isSome cfg.consensusThreshold
      (hd.2.map (fun p => p.price)) (by simpa using hne)
    simp only [batchConsensusList,
      if_neg (by simpa [List.length_eq_zero] using hne :
        ¬ hd.2.length = 0), hcp]
    simp only [List.map_cons]
    rw [ih _ (fun x hx => h x (by simp [hx]))]

/-- C8: in the batch path (with an admitting rate-limiter window when a
provider round is needed): the batch never fails — the result is `ok` —
and the returned list is the concatenation of the already-cached results
with the newly resolved consensus quotes; the newly resolved quotes carry
exactly the distinct uppercased symbols occurring in some provider's
response, so a requested symbol for which every provider returned zero
quotes is silently omitted, with no per-symbol error. -/
theorem fetchMultiplePrices_batch_spec (cfg : AggregatorConfig)
    (env : CacheEnv) (symbols : List String) (currency : String)
    (st : AggregatorState) (t0 : Int) (now : Nat → Int) (opTime : Nat → Int)
    (provBatch : Nat → List (Except JsError (List PriceData))) (fuel : Nat)
    (hAdmit : ¬ cfg.rlOpts.maxRequests ≤
      (pruneRequests cfg.rlOpts.windowMs (now 0) st.rl.requests).length)
    (hfuel : 1 ≤ fuel) :
    ((cachePartition cfg env t0 currency symbols st.cache).2.1 = [] →
      (DecentralizedAggregator.fetchMultiplePrices cfg env symbols currency
        st t0 now opTime provBatch fuel).result =
        .ok ((cachePartition cfg env t0 currency symbols st.cache).1,
          (cachePartition cfg env t0 currency symbols st.cache).2.2)) ∧
    ((cachePartition cfg env t0 currency symbols st.cache).2.1 ≠ [] →
      (DecentralizedAggregator.fetchMultiplePrices cfg env symbols currency
        st t0 now opTime provBatch fuel).result =
        .ok ((cachePartition cfg env t0 currency symbols st.cache).1 ++
          (batchConsensusList cfg env currency (opTime 0)
            (groupBySymbol (batchAllResults provBatch 0))
            (cachePartition cfg env t0 currency symbols st.cache).2.2).1,
          (batchConsensusList cfg env currency (opTime 0)
            (groupBySymbol (batchAllResults provBatch 0))
            (cachePartition cfg env t0 currency symbols st.cache).2.2).2)) ∧
    (∀ (cacheSt : EdgeCacheState PriceData),
      (batchConsensusList cfg env currency (opTime 0)
        (groupBySymbol (batchAllResults provBatch 0)) cacheSt).1.map
        (fun p => p.symbol) =
      (groupBySymbol (batchAllResults provBatch 0)).map Prod.fst) ∧
    (∀ (s : String) (cacheSt : EdgeCacheState PriceData),
      (∀ p ∈ batchAllResults provBatch 0, jsToUpper p.symbol ≠ jsToUpper s) →
      ¬ jsToUpper s ∈
        (batchConsensusList cfg env currency (opTime 0)
          (groupBySymbol (batchAllResults provBatch 0)) cacheSt).1.map
          (fun p => p.symbol)) := by
  obtain ⟨f, rfl⟩ : ∃ f, fuel = f + 1 := ⟨fuel - 1, by omega⟩
  have hgne : ∀ x ∈ groupBySymbol (batchAllResults provBatch 0), x.2 ≠ [] :=
    groupBySymbolAux_nonempty (batchAllResults provBatch 0) [] (by simp)
  have hsym : ∀ (cacheSt : EdgeCacheState PriceData),
      (batchConsensusList cfg env currency (opTime 0)
        (groupBySymbol (batchAllResults provBatch 0)) cacheSt).1.map
        (fun p => p.symbol) =
      (groupBySymbol (batchAllResults provBatch 0)).map Prod.fst :=
    fun cacheSt => batchConsensusList_symbols cfg env currency (opTime 0)
      (groupBySymbol (batchAllResults provBatch 0)) cacheSt hgne
  refine ⟨?_, ?_, hsym, ?_⟩
  · intro hempty
    simp only [DecentralizedAggregator.fetchMultiplePrices,
      if_pos (by simpa [List.length_eq_zero] using hempty :
        (cachePartition cfg env t0 currency symbols st.cache).2.1.length = 0)]
  · intro hne
    have hlen : ¬ (cachePartition cfg env t0 currency symbols
        st.cache).2.1.length = 0 := by
      simpa [List.length_eq_zero] using hne
    have hop : fetchMultipleOp cfg env currency
        (cachePartition cfg env t0 currency symbols st.cache).2.2 provBatch
        opTime 0 =
        .ok (batchConsensusList cfg env currency (opTime 0)
          (groupBySymbol (batchAllResults provBatch 0))
          (cachePartition cfg env t0 currency symbols st.cache).2.2) := rfl
    simp only [DecentralizedAggregator.fetchMultiplePrices, if_neg hlen,
      execute_step_ok hAdmit hop]
  · intro s cacheSt hnone hmem
    rw [hsym cacheSt] at hmem
    rcases groupBySymbolAux_keys (batchAllResults provBatch 0) [] _ hmem with
      h1 | ⟨p, hp, hk⟩
    · simp at h1
    · exact hnone p hp hk

/-- Witness for C8 with the spec's partial-failure scenario: symbols
`["BTC", "ETH"]`, both uncached; the first provider's batch call fails
entirely and the second returns only an ETH quote — the batch result is
`ok` with exactly one quote, for `ETH`, and `BTC` is silently absent. -/
theorem fetchMultiplePrices_batch_spec_witness :
    (DecentralizedAggregator.fetchMultiplePrices
      ⟨⟨1, 60000, 2000, 3⟩, ⟨60000, 500, .memory⟩, 1/2⟩ ⟨false⟩
      ["BTC", "ETH"] "usd" ⟨EdgeCacheState.empty false, ⟨[], none⟩⟩ 0
      (fun _ => 0) (fun _ => 7)
      (fun _ => [.error ⟨some 500, none, none⟩, .ok [⟨"ETH", 2000, 3⟩]])
      1).result =
      .ok ((cachePartition ⟨⟨1, 60000, 2000, 3⟩, ⟨60000, 500, .memory⟩, 1/2⟩
          ⟨false⟩ 0 "usd" ["BTC", "ETH"] (EdgeCacheState.empty false)).1 ++
        (batchConsensusList ⟨⟨1, 60000, 2000, 3⟩, ⟨60000, 500, .memory⟩, 1/2⟩
          ⟨false⟩ "usd" 7
          (groupBySymbol (batchAllResults
            (fun _ => [.error ⟨some 500, none, none⟩,
              .ok [⟨"ETH", 2000, 3⟩]]) 0))
          (cachePartition ⟨⟨1, 60000, 2000, 3⟩, ⟨60000, 500, .memory⟩, 1/2⟩
            ⟨false⟩ 0 "usd" ["BTC", "ETH"]
            (EdgeCacheState.empty false)).2.2).1,
        (batchConsensusList ⟨⟨1, 60000, 2000, 3⟩, ⟨60000, 500, .memory⟩, 1/2⟩
          ⟨false⟩ "usd" 7
          (groupBySymbol (batchAllResults
            (fun _ => [.error ⟨some 500, none, none⟩,
              .ok [⟨"ETH", 2000, 3⟩]]) 0))
          (cachePartition ⟨⟨1, 60000, 2000, 3⟩, ⟨60000, 500, .memory⟩, 1/2⟩
            ⟨false⟩ 0 "usd" ["BTC", "ETH"]
            (EdgeCacheState.empty false)).2.2).2) ∧
    ¬ jsToUpper "BTC" ∈
      (batchConsensusList ⟨⟨1, 60000, 2000, 3⟩, ⟨60000, 500, .memory⟩, 1/2⟩
        ⟨false⟩ "usd" 7
        (groupBySymbol (batchAllResults
          (fun _ => [.error ⟨some 500, none, none⟩,
            .ok [⟨"ETH", 2000, 3⟩]]) 0))
        (cachePartition ⟨⟨1, 60000, 2000, 3⟩, ⟨60000, 500, .memory⟩, 1/2⟩
          ⟨false⟩ 0 "usd" ["BTC", "ETH"]
          (EdgeCacheState.empty false)).2.2).1.map (fun p => p.symbol) :=
  have h := fetchMultiplePrices_batch_spec
    ⟨⟨1, 60000, 2000, 3⟩, ⟨60000, 500, .memory⟩, 1/2⟩ ⟨false⟩
    ["BTC", "ETH"] "usd" ⟨EdgeCacheState.empty false, ⟨[], none⟩⟩ 0
    (fun _ => 0) (fun _ => 7)
    (fun _ => [.error ⟨some 500, none, none⟩, .ok [⟨"ETH", 2000, 3⟩]]) 1
    (by decide) (by decide)
  ⟨h.2.1 (by decide), h.2.2.2 "BTC" _ (by decide)⟩
